import Mathlib

/-!
Shallow embedding of `src/autora/experiment_runner/firebase_prolific/__init__.py`.

The module defines two runners:

* `_firebase_run(conditions, **kwargs)` — host-only mode: send conditions to
  firebase, poll `check_firebase_status("autora", credentials, time_out)` until
  it reads `"finished"`, then fetch the observation dict and return its values
  in sorted-key order.
* `_firebase_prolific_run(conditions, **kwargs)` — combined mode: additionally
  create a prolific study sized to `len(conditions)`, derive the host time-out
  as `prolific_dict["maximum_allowed_time"] * 60`, and on each tick reconcile
  the prolific campaign (publish / start / pause) with the firebase status.

The embedding models each external call's observable arguments and the values
the remote platforms return on each polling tick.  Remote reads are supplied by
an environment (`HostEnv` / `ProlificEnv`): one entry per tick, consumed in
order; the run is evaluated against that finite trace.  Each executed tick is
recorded in a `TickLog`; run-level calls (send_conditions, setup_study) are
recorded in a `RunLog`.  Credentials, tokens and other payloads that the code
merely threads through to the external clients are elided, as is the wall-clock
sleep; `time.sleep` has no observable effect in the embedding.

Python runtime errors that the code can actually raise on this path are
modelled explicitly: a `KeyError` from `prolific_dict["maximum_allowed_time"]`
or `prolific_dict["id"]`, and a `NameError` from reading `check_prolific`
before its first assignment.
-/

/-! ### Python string ordering

Python's `sorted` on `str` keys orders them lexicographically by code point.
`lexLe` is that order on the code-point lists; `pyLe` lifts it to `String`
(via `String.data`).  It agrees with the usual string order; it is defined by
structural recursion so that concrete runs reduce inside the kernel. -/

def lexLe : List Char → List Char → Bool
  | [], _ => true
  | _ :: _, [] => false
  | a :: as, b :: bs =>
    if a.toNat = b.toNat then lexLe as bs else decide (a.toNat < b.toNat)

def pyLe (a b : String) : Prop := lexLe a.data b.data = true

instance : DecidableRel pyLe := fun a b => instDecidableEqBool (lexLe a.data b.data) true

theorem lexLe_total (a b : List Char) : lexLe a b = true ∨ lexLe b a = true := by
  induction a generalizing b with
  | nil => exact Or.inl rfl
  | cons x xs ih =>
    cases b with
    | nil => exact Or.inr rfl
    | cons y ys =>
      by_cases h : x.toNat = y.toNat
      · have h' : y.toNat = x.toNat := h.symm
        rcases ih ys with h1 | h1
        · exact Or.inl (by simp [lexLe, h, h1])
        · exact Or.inr (by simp [lexLe, h', h1])
      · have h' : ¬ y.toNat = x.toNat := fun he => h he.symm
        rcases Nat.lt_or_ge x.toNat y.toNat with hlt | hge
        · exact Or.inl (by simp [lexLe, h, hlt])
        · have hlt : y.toNat < x.toNat := lt_of_le_of_ne hge h'
          exact Or.inr (by simp [lexLe, h', hlt])

theorem lexLe_trans (a b c : List Char) (hab : lexLe a b = true)
    (hbc : lexLe b c = true) : lexLe a c = true := by
  induction a generalizing b c with
  | nil => rfl
  | cons x xs ih =>
    cases b with
    | nil => simp [lexLe] at hab
    | cons y ys =>
      cases c with
      | nil => simp [lexLe] at hbc
      | cons z zs =>
        simp only [lexLe] at hab hbc ⊢
        by_cases hxy : x.toNat = y.toNat <;> by_cases hyz : y.toNat = z.toNat
        · have hxz : x.toNat = z.toNat := hxy.trans hyz
          simp only [hxy, if_pos rfl] at hab
          simp only [hyz, if_pos rfl] at hbc
          simp [hxz, ih ys zs hab hbc]
        · simp only [hxy, if_pos rfl] at hab
          simp only [if_neg hyz, decide_eq_true_eq] at hbc
          have hxz : ¬ x.toNat = z.toNat := by omega
          simp [hxz, hxy ▸ hbc]
        · simp only [if_neg hxy, decide_eq_true_eq] at hab
          simp only [hyz, if_pos rfl] at hbc
          have hxz : ¬ x.toNat = z.toNat := by omega
          have : x.toNat < z.toNat := by omega
          simp [hxz, this]
        · simp only [if_neg hxy, decide_eq_true_eq] at hab
          simp only [if_neg hyz, decide_eq_true_eq] at hbc
          have hxz : ¬ x.toNat = z.toNat := by omega
          have : x.toNat < z.toNat := by omega
          simp [hxz, this]

theorem lexLe_antisymm (a b : List Char) (hab : lexLe a b = true)
    (hba : lexLe b a = true) : a = b := by
  induction a generalizing b with
  | nil =>
    cases b with
    | nil => rfl
    | cons y ys => simp [lexLe] at hba
  | cons x xs ih =>
    cases b with
    | nil => simp [lexLe] at hab
    | cons y ys =>
      simp only [lexLe] at hab hba
      by_cases hxy : x.toNat = y.toNat
      · have hyx : y.toNat = x.toNat := hxy.symm
        simp only [hxy, if_pos rfl] at hab
        simp only [hyx, if_pos rfl] at hba
        have hx : x = y := Char.eq_of_val_eq (UInt32.ext hxy)
        rw [hx, ih ys hab hba]
      · have hyx : ¬ y.toNat = x.toNat := fun he => hxy he.symm
        simp only [if_neg hxy, decide_eq_true_eq] at hab
        simp only [if_neg hyx, decide_eq_true_eq] at hba
        omega

instance : IsTotal String pyLe := ⟨fun a b => lexLe_total a.data b.data⟩

instance : IsTrans String pyLe := ⟨fun a b c => lexLe_trans a.data b.data c.data⟩

instance : IsAntisymm String pyLe :=
  ⟨fun a b hab hba => by
    have h : a.data = b.data := lexLe_antisymm a.data b.data hab hba
    cases a; cases b; exact congrArg String.mk h⟩

/-- Python's `sorted` on a list of string keys: a stable comparison sort.
Because `pyLe` is a total, antisymmetric, transitive order, every comparison
sort produces the same list; `insertionSort` is used as the executable model. -/
def pySorted (l : List String) : List String := l.insertionSort pyLe

theorem pySorted_perm (l : List String) : (pySorted l).Perm l :=
  List.perm_insertionSort pyLe l

theorem pySorted_sorted (l : List String) : List.Sorted pyLe (pySorted l) :=
  List.sorted_insertionSort pyLe l

/-- `pySorted` depends only on the multiset of keys, not on their order. -/
theorem pySorted_eq_of_perm (l1 l2 : List String) (h : l1.Perm l2) :
    pySorted l1 = pySorted l2 :=
  List.eq_of_perm_of_sorted
    ((pySorted_perm l1).trans (h.trans (pySorted_perm l2).symm))
    (pySorted_sorted l1) (pySorted_sorted l2)

/-! ### Observation mapping and aggregation -/

/-- The dict returned by `get_observations`: a finite set of string keys
(listed in the dict's internal iteration order) together with the value stored
under each key.  `observation[key]` is `val key`. -/
structure ObsMap (V : Type) where
  keys : List String
  val : String → V

/-- Lines 40 and 88 of the source:
`[observation[key] for key in sorted(observation.keys())]`. -/
def observationListOf {V : Type} (m : ObsMap V) : List V :=
  (pySorted m.keys).map m.val

/-! ### Data model for the two runners -/

/-- A value stored in the `prolific_dict` returned by `setup_study`
(the study spec): the fields the run reads are a number
(`maximum_allowed_time`) and a string (`id`). -/
inductive PVal
  | num (n : Int)
  | str (s : String)
deriving DecidableEq

/-- Python's `x * 60` for a dict value: numeric multiplication for a number,
string repetition for a string (line 72 of the source). -/
def pvalMul60 : PVal → PVal
  | PVal.num n => PVal.num (n * 60)
  | PVal.str s => PVal.str (String.join (List.replicate 60 s))

/-- The dict returned by `check_prolific_status`: the three fields the run
reads. -/
structure ProlificCheck where
  number_of_submissions : Int
  total_available_places : Int
  status : String
deriving DecidableEq

/-- A state-changing recruiter call (`publish_study`, `start_study`,
`pause_study`). The `study_id` argument is loop-constant and recorded once in
the `RunLog`. -/
inductive RAct
  | publish
  | start
  | pause
deriving DecidableEq

/-- The Python runtime errors reachable in `_firebase_prolific_run`:
`KeyError` from `prolific_dict[...]`, `NameError` from reading the local
variable `check_prolific` before its first assignment. -/
inductive PyError
  | keyError (k : String)
  | nameError (v : String)
deriving DecidableEq

/-- Observable record of one executed tick of a poll loop:
the arguments of the `check_firebase_status` call (`fbNs`, `fbTimeOut`), the
host status it returned (`fb`), whether `check_prolific_status` was called and
the value the variable `check_prolific` holds after the read
(`prolificCalled`, `prolific`), the recruiter actions issued (`actions`), the
namespace passed to `get_observations` if it was called (`fetchNs`), and
whether the run returned on this tick (`returned`). -/
structure TickLog where
  fbNs : String
  fbTimeOut : PVal
  fb : String
  prolificCalled : Bool
  prolific : Option ProlificCheck
  actions : List RAct
  fetchNs : Option String
  returned : Bool
deriving DecidableEq

/-- Observable record of one whole run: the namespace and batch size passed to
`send_conditions`, whether `setup_study` was called and with which
`total_available_places`, the `study_id` read from the study spec (if the run
got that far), and the per-tick logs. -/
structure RunLog where
  sendNs : String
  sentCount : Nat
  campaignCreated : Bool
  campaignPlaces : Option Nat
  studyId : Option PVal
  ticks : List TickLog
deriving DecidableEq

/-- The outcome of evaluating a run against a finite trace of remote reads:
the run returned an observation list, raised a Python error, or was still
polling when the supplied trace ran out. -/
inductive Outcome (V : Type)
  | returned (obs : List V)
  | pyError (e : PyError)
  | outOfTrace
deriving DecidableEq

def Outcome.isReturned {V : Type} : Outcome V → Bool
  | Outcome.returned _ => true
  | _ => false

/-- The remote reads of one combined-mode tick: what `check_firebase_status`
and `check_prolific_status` return on that tick. -/
structure PTick where
  fb : String
  prolific : ProlificCheck
deriving DecidableEq

/-- Environment of one combined-mode run: the `setup_study` response (a dict,
modelled as an association list), the per-tick remote reads, and the
`get_observations` response. -/
structure ProlificEnv (V : Type) where
  prolific_dict : List (String × PVal)
  ticks : List PTick
  obs : ObsMap V

/-- Environment of one host-only run: the `check_firebase_status` value per
tick and the `get_observations` response. -/
structure HostEnv (V : Type) where
  statuses : List String
  obs : ObsMap V

/-! ### The combined runner `_firebase_prolific_run` (source lines 45-109) -/

/-- Source lines 95-108: the recruiter actions issued by the branch block of
one tick, given `check_firebase` and the value of `check_prolific`.
```
if check_firebase == "available":
    if check_prolific["status"] == "UNPUBLISHED": publish_study(...)
    if check_prolific["status"] == "PAUSED": start_study(...)
if check_firebase == "unavailable":
    if check_prolific["status"] == "STARTED": pause_study(...)
``` -/
def branchActions (check_firebase : String) (check_prolific : ProlificCheck) :
    List RAct :=
  (if check_firebase = "available" then
      (if check_prolific.status = "UNPUBLISHED" then [RAct.publish] else [])
        ++ (if check_prolific.status = "PAUSED" then [RAct.start] else [])
    else [])
    ++ (if check_firebase = "unavailable" then
      (if check_prolific.status = "STARTED" then [RAct.pause] else [])
    else [])

/-- The `while True:` loop of `_firebase_prolific_run` (source lines 75-109),
evaluated against a finite trace of ticks.  Per tick `t`:

* `check_firebase := t.fb` (line 77);
* `if prolific_dict:` — Python truthiness of a dict is non-emptiness; when it
  holds, `check_prolific := t.prolific` (line 82) and the run returns the
  sorted observations when `number_of_submissions >= total_available_places`
  and `check_firebase == "finished"` hold together (lines 83-89); when it does
  not hold, `check_prolific` keeps its value from earlier iterations (the
  accumulator argument);
* the branch block raises `NameError` if it reads `check_prolific` while the
  variable is still unassigned, i.e. if `check_firebase` is `"available"` or
  `"unavailable"` while the accumulator is `none` (lines 95-108);
* otherwise the branch actions are issued and the loop sleeps and repeats
  (line 109). -/
def prolificLoop {V : Type} (prolific_dict : List (String × PVal))
    (time_out : PVal) (obs : ObsMap V) :
    Option ProlificCheck → List PTick → Outcome V × List TickLog
  | _, [] => (Outcome.outOfTrace, [])
  | check_prolific, t :: rest =>
    if prolific_dict.isEmpty = false
        ∧ t.prolific.number_of_submissions ≥ t.prolific.total_available_places
        ∧ t.fb = "finished" then
      (Outcome.returned (observationListOf obs),
       [⟨"autora", time_out, t.fb, !prolific_dict.isEmpty,
         some t.prolific, [], some "autora", true⟩])
    else
      if (t.fb = "available" ∨ t.fb = "unavailable")
          ∧ (if prolific_dict.isEmpty then check_prolific
             else some t.prolific) = none then
        (Outcome.pyError (PyError.nameError "check_prolific"),
         [⟨"autora", time_out, t.fb, !prolific_dict.isEmpty,
           (if prolific_dict.isEmpty then check_prolific else some t.prolific),
           [], none, false⟩])
      else
        let cp : Option ProlificCheck :=
          if prolific_dict.isEmpty then check_prolific else some t.prolific
        let r := prolificLoop prolific_dict time_out obs cp rest
        (r.1,
         ⟨"autora", time_out, t.fb, !prolific_dict.isEmpty, cp,
          (match cp with
           | some c => branchActions t.fb c
           | none => []),
          none, false⟩ :: r.2)

/-- `_firebase_prolific_run(conditions, **kwargs)` (source lines 45-109):
send the conditions to firebase under namespace `"autora"` (line 58), create
the prolific study with `total_available_places = len(conditions)` (lines
61-69), read `time_out = prolific_dict["maximum_allowed_time"] * 60` and
`study_id = prolific_dict["id"]` (lines 72-73; a missing key raises
`KeyError`), then enter the poll loop. -/
def firebase_prolific_run {C V : Type} (conditions : List C)
    (env : ProlificEnv V) : Outcome V × RunLog :=
  match env.prolific_dict.lookup "maximum_allowed_time" with
  | none =>
    (Outcome.pyError (PyError.keyError "maximum_allowed_time"),
     ⟨"autora", conditions.length, true, some conditions.length, none, []⟩)
  | some m =>
    match env.prolific_dict.lookup "id" with
    | none =>
      (Outcome.pyError (PyError.keyError "id"),
       ⟨"autora", conditions.length, true, some conditions.length, none, []⟩)
    | some study_id =>
      let r := prolificLoop env.prolific_dict (pvalMul60 m) env.obs none
        env.ticks
      (r.1, ⟨"autora", conditions.length, true, some conditions.length,
        some study_id, r.2⟩)

/-! ### The host-only runner `_firebase_run` (source lines 17-42) -/

/-- The `while True:` loop of `_firebase_run` (source lines 35-42): per tick,
read `check_firebase`; if it is `"finished"`, fetch the observations and
return them in sorted-key order; otherwise sleep and repeat.  No prolific
call occurs anywhere in this runner. -/
def firebaseLoop {V : Type} (time_out : PVal) (obs : ObsMap V) :
    List String → Outcome V × List TickLog
  | [] => (Outcome.outOfTrace, [])
  | st :: rest =>
    if st = "finished" then
      (Outcome.returned (observationListOf obs),
       [⟨"autora", time_out, st, false, none, [], some "autora", true⟩])
    else
      let r := firebaseLoop time_out obs rest
      (r.1,
       ⟨"autora", time_out, st, false, none, [], none, false⟩ :: r.2)

/-- `_firebase_run(conditions, **kwargs)` (source lines 17-42): send the
conditions under namespace `"autora"` (line 32) and poll with the
caller-supplied `kwargs["time_out"]`.  No study is created. -/
def firebase_run {C V : Type} (conditions : List C) (time_out : PVal)
    (env : HostEnv V) : Outcome V × RunLog :=
  let r := firebaseLoop time_out env.obs env.statuses
  (r.1, ⟨"autora", conditions.length, false, none, none, r.2⟩)

/-! ### The spec-side precedence table (spec §4.1)

`specReconcilerTable` transcribes the Reconciler contract of the spec, for
comparison with the source-derived `branchActions`: first match wins, at most
one action. -/

def specReconcilerTable (h s : String) : Option RAct :=
  if h = "available" ∧ s = "UNPUBLISHED" then some RAct.publish
  else if h = "available" ∧ s = "PAUSED" then some RAct.start
  else if h = "unavailable" ∧ s = "STARTED" then some RAct.pause
  else none

/-! ### Helper lemmas -/

/-- The branch block of the source issues exactly the action of the spec's
precedence table. -/
theorem branchActions_eq_table (fb : String) (c : ProlificCheck) :
    branchActions fb c = (specReconcilerTable fb c.status).toList := by
  unfold branchActions specReconcilerTable
  by_cases ha : fb = "available" <;> by_cases hu : fb = "unavailable"
  · exact absurd (ha ▸ hu) (by decide)
  · by_cases h1 : c.status = "UNPUBLISHED" <;> by_cases h2 : c.status = "PAUSED"
    · exact absurd (h1 ▸ h2) (by decide)
    · simp [ha, hu, h1, h2]
    · simp [ha, hu, h1, h2]
    · simp [ha, hu, h1, h2]
  · by_cases h3 : c.status = "STARTED" <;> simp [ha, hu, h3]
  · simp [ha, hu]

/-- One-step unfolding of the combined loop on a non-empty trace. -/
theorem prolificLoop_cons {V : Type} (pd : List (String × PVal))
    (time_out : PVal) (obs : ObsMap V) (cp : Option ProlificCheck) (t : PTick)
    (rest : List PTick) :
    prolificLoop pd time_out obs cp (t :: rest)
      = if pd.isEmpty = false
            ∧ t.prolific.number_of_submissions
                ≥ t.prolific.total_available_places
            ∧ t.fb = "finished" then
          (Outcome.returned (observationListOf obs),
           [⟨"autora", time_out, t.fb, !pd.isEmpty, some t.prolific, [],
             some "autora", true⟩])
        else if (t.fb = "available" ∨ t.fb = "unavailable")
            ∧ (if pd.isEmpty then cp else some t.prolific) = none then
          (Outcome.pyError (PyError.nameError "check_prolific"),
           [⟨"autora", time_out, t.fb, !pd.isEmpty,
             (if pd.isEmpty then cp else some t.prolific), [], none, false⟩])
        else
          ((prolificLoop pd time_out obs
              (if pd.isEmpty then cp else some t.prolific) rest).1,
           ⟨"autora", time_out, t.fb, !pd.isEmpty,
            (if pd.isEmpty then cp else some t.prolific),
            (match (if pd.isEmpty then cp else some t.prolific) with
             | some c => branchActions t.fb c
             | none => []),
            none, false⟩
             :: (prolificLoop pd time_out obs
                  (if pd.isEmpty then cp else some t.prolific) rest).2) := rfl

/-- Everything the proofs need about one executed tick of the combined loop,
when a study spec exists. -/
def goodLog (time_out : PVal) (l : TickLog) : Prop :=
  l.fbNs = "autora" ∧ l.fbTimeOut = time_out ∧ l.prolificCalled = true ∧
  ∃ c, l.prolific = some c ∧
    l.actions = (specReconcilerTable l.fb c.status).toList ∧
    (l.returned = true ↔
      (c.number_of_submissions ≥ c.total_available_places ∧ l.fb = "finished")) ∧
    l.fetchNs = (if l.returned then some "autora" else none)

/-- Master invariant of the combined-mode poll loop, under the hypothesis that
the study spec dict is non-empty (which holds whenever the loop is reached,
since the key lookups at lines 72-73 succeeded). -/
theorem prolificLoop_spec {V : Type} (pd : List (String × PVal))
    (time_out : PVal) (obs : ObsMap V) (cp : Option ProlificCheck)
    (ticks : List PTick) (hpd : pd.isEmpty = false) :
    (∀ l ∈ (prolificLoop pd time_out obs cp ticks).2, goodLog time_out l)
    ∧ ((prolificLoop pd time_out obs cp ticks).1.isReturned = true ↔
        ∃ t ∈ ticks,
          t.prolific.number_of_submissions ≥ t.prolific.total_available_places
          ∧ t.fb = "finished")
    ∧ ((prolificLoop pd time_out obs cp ticks).1.isReturned = true →
        (prolificLoop pd time_out obs cp ticks).1
          = Outcome.returned (observationListOf obs))
    ∧ (∀ e, (prolificLoop pd time_out obs cp ticks).1 ≠ Outcome.pyError e)
    ∧ ((prolificLoop pd time_out obs cp ticks).2.countP (fun l => l.returned)
        = if (prolificLoop pd time_out obs cp ticks).1.isReturned then 1 else 0)
    ∧ ((prolificLoop pd time_out obs cp ticks).2.countP
          (fun l => l.fetchNs.isSome)
        = if (prolificLoop pd time_out obs cp ticks).1.isReturned then 1
          else 0) := by
  induction ticks generalizing cp with
  | nil =>
    simp [prolificLoop, Outcome.isReturned]
  | cons t rest ih =>
    by_cases hc :
        t.prolific.number_of_submissions ≥ t.prolific.total_available_places
        ∧ t.fb = "finished"
    · rw [prolificLoop_cons, if_pos ⟨hpd, hc⟩]
      refine ⟨?_, ?_, fun _ => rfl, fun e h => Outcome.noConfusion h, rfl, rfl⟩
      · intro l hl
        rcases List.mem_singleton.mp hl with rfl
        refine ⟨rfl, rfl, by simp [hpd], t.prolific, rfl, ?_, ?_, rfl⟩
        · have hnone : specReconcilerTable t.fb t.prolific.status = none := by
            unfold specReconcilerTable
            simp [hc.2]
          simp [hnone]
        · simpa using hc
      · simp only [Outcome.isReturned, true_iff]
        exact ⟨t, List.mem_cons_self t rest, hc⟩
    · have hcp : (if pd.isEmpty then cp else some t.prolific)
          = some t.prolific := by simp [hpd]
      rw [prolificLoop_cons, if_neg (fun h => hc h.2), hcp,
        if_neg (fun h => Option.noConfusion h.2)]
      obtain ⟨ih1, ih2, ih3, ih4, ih5, ih6⟩ := ih (some t.prolific)
      refine ⟨?_, ?_, ih3, ih4, ?_, ?_⟩
      · intro l hl
        rcases List.mem_cons.mp hl with rfl | hl
        · refine ⟨rfl, rfl, by simp [hpd], t.prolific, rfl,
            branchActions_eq_table t.fb t.prolific, ?_, rfl⟩
          simpa using hc
        · exact ih1 l hl
      · rw [ih2]
        constructor
        · rintro ⟨u, hu, hcu⟩
          exact ⟨u, List.mem_cons_of_mem t hu, hcu⟩
        · rintro ⟨u, hu, hcu⟩
          rcases List.mem_cons.mp hu with rfl | hu
          · exact absurd hcu hc
          · exact ⟨u, hu, hcu⟩
      · rw [List.countP_cons]
        simp only [ih5]
        rfl
      · rw [List.countP_cons]
        simp only [ih6]
        rfl

/-- Unfolding `firebase_prolific_run` when both dict lookups succeed. -/
theorem prolific_run_eq {C V : Type} (conditions : List C)
    (env : ProlificEnv V) (m study_id : PVal)
    (hm : env.prolific_dict.lookup "maximum_allowed_time" = some m)
    (hi : env.prolific_dict.lookup "id" = some study_id) :
    firebase_prolific_run conditions env
      = ((prolificLoop env.prolific_dict (pvalMul60 m) env.obs none
            env.ticks).1,
         ⟨"autora", conditions.length, true, some conditions.length,
          some study_id,
          (prolificLoop env.prolific_dict (pvalMul60 m) env.obs none
            env.ticks).2⟩) := by
  unfold firebase_prolific_run
  rw [hm, hi]

/-- A dict with a successful key lookup is non-empty. -/
theorem lookup_isEmpty_false {β : Type} (l : List (String × β)) (k : String)
    (v : β) (h : l.lookup k = some v) : l.isEmpty = false := by
  cases l with
  | nil => exact absurd h (by simp [List.lookup])
  | cons p rest => rfl

/-- One-step unfolding of the host-only loop on a non-empty trace. -/
theorem firebaseLoop_cons {V : Type} (time_out : PVal) (obs : ObsMap V)
    (st : String) (rest : List String) :
    firebaseLoop time_out obs (st :: rest)
      = if st = "finished" then
          (Outcome.returned (observationListOf obs),
           [⟨"autora", time_out, st, false, none, [], some "autora", true⟩])
        else
          ((firebaseLoop time_out obs rest).1,
           ⟨"autora", time_out, st, false, none, [], none, false⟩
             :: (firebaseLoop time_out obs rest).2) := rfl

/-- Master invariant of the host-only poll loop. -/
theorem firebaseLoop_spec {V : Type} (time_out : PVal) (obs : ObsMap V)
    (statuses : List String) :
    (∀ l ∈ (firebaseLoop time_out obs statuses).2,
      l.fbNs = "autora" ∧ l.fbTimeOut = time_out ∧ l.prolificCalled = false
      ∧ l.prolific = none ∧ l.actions = []
      ∧ (l.returned = true ↔ l.fb = "finished")
      ∧ l.fetchNs = (if l.returned then some "autora" else none))
    ∧ ((firebaseLoop time_out obs statuses).1.isReturned = true ↔
        "finished" ∈ statuses)
    ∧ ((firebaseLoop time_out obs statuses).1.isReturned = true →
        (firebaseLoop time_out obs statuses).1
          = Outcome.returned (observationListOf obs))
    ∧ (∀ e, (firebaseLoop time_out obs statuses).1 ≠ Outcome.pyError e)
    ∧ ((firebaseLoop time_out obs statuses).2.countP (fun l => l.returned)
        = if (firebaseLoop time_out obs statuses).1.isReturned then 1 else 0)
    ∧ ((firebaseLoop time_out obs statuses).2.countP
          (fun l => l.fetchNs.isSome)
        = if (firebaseLoop time_out obs statuses).1.isReturned then 1
          else 0) := by
  induction statuses with
  | nil => simp [firebaseLoop, Outcome.isReturned]
  | cons st rest ih =>
    obtain ⟨ih1, ih2, ih3, ih4, ih5, ih6⟩ := ih
    by_cases hf : st = "finished"
    · rw [firebaseLoop_cons, if_pos hf]
      refine ⟨?_, ?_, fun _ => rfl, fun e h => Outcome.noConfusion h, rfl, rfl⟩
      · intro l hl
        rcases List.mem_singleton.mp hl with rfl
        exact ⟨rfl, rfl, rfl, rfl, rfl, by simpa using hf, rfl⟩
      · simp only [Outcome.isReturned, true_iff]
        exact hf ▸ List.mem_cons_self st rest
    · rw [firebaseLoop_cons, if_neg hf]
      refine ⟨?_, ?_, ih3, ih4, ?_, ?_⟩
      · intro l hl
        rcases List.mem_cons.mp hl with rfl | hl
        · exact ⟨rfl, rfl, rfl, rfl, rfl, by simpa using hf, rfl⟩
        · exact ih1 l hl
      · rw [ih2]
        constructor
        · intro h
          exact List.mem_cons_of_mem st h
        · intro h
          rcases List.mem_cons.mp h with h1 | h1
          · exact absurd h1.symm hf
          · exact h1
      · rw [List.countP_cons]
        simp only [ih5]
        rfl
      · rw [List.countP_cons]
        simp only [ih6]
        rfl

/-- Unfolding `firebase_prolific_run` when the `maximum_allowed_time` key is
missing (line 72 raises `KeyError` before the loop runs). -/
theorem prolific_run_keyError_time {C V : Type} (conditions : List C)
    (env : ProlificEnv V)
    (hm : env.prolific_dict.lookup "maximum_allowed_time" = none) :
    firebase_prolific_run conditions env
      = (Outcome.pyError (PyError.keyError "maximum_allowed_time"),
         ⟨"autora", conditions.length, true, some conditions.length, none,
          []⟩) := by
  unfold firebase_prolific_run
  rw [hm]

/-- Unfolding `firebase_prolific_run` when the `id` key is missing (line 73
raises `KeyError` before the loop runs). -/
theorem prolific_run_keyError_id {C V : Type} (conditions : List C)
    (env : ProlificEnv V) (m : PVal)
    (hm : env.prolific_dict.lookup "maximum_allowed_time" = some m)
    (hi : env.prolific_dict.lookup "id" = none) :
    firebase_prolific_run conditions env
      = (Outcome.pyError (PyError.keyError "id"),
         ⟨"autora", conditions.length, true, some conditions.length, none,
          []⟩) := by
  unfold firebase_prolific_run
  rw [hm, hi]

/-- Unfolding `firebase_run`. -/
theorem firebase_run_eq {C V : Type} (conditions : List C) (time_out : PVal)
    (env : HostEnv V) :
    firebase_run conditions time_out env
      = ((firebaseLoop time_out env.obs env.statuses).1,
         ⟨"autora", conditions.length, false, none, none,
          (firebaseLoop time_out env.obs env.statuses).2⟩) := rfl

/-- Run-level facts of the combined runner that hold on every environment,
whether or not the dict lookups succeed: the fixed `send_conditions` call, the
campaign sizing, and that every executed tick satisfies `goodLog` for some
time-out value. -/
theorem prolific_run_log {C V : Type} (conditions : List C)
    (env : ProlificEnv V) :
    (firebase_prolific_run conditions env).2.sendNs = "autora"
    ∧ (firebase_prolific_run conditions env).2.sentCount = conditions.length
    ∧ (firebase_prolific_run conditions env).2.campaignCreated = true
    ∧ (firebase_prolific_run conditions env).2.campaignPlaces
        = some conditions.length
    ∧ ∀ l ∈ (firebase_prolific_run conditions env).2.ticks,
        ∃ time_out, goodLog time_out l := by
  cases hm : env.prolific_dict.lookup "maximum_allowed_time" with
  | none =>
    rw [prolific_run_keyError_time conditions env hm]
    exact ⟨rfl, rfl, rfl, rfl, fun l hl => absurd hl (List.not_mem_nil l)⟩
  | some m =>
    cases hi : env.prolific_dict.lookup "id" with
    | none =>
      rw [prolific_run_keyError_id conditions env m hm hi]
      exact ⟨rfl, rfl, rfl, rfl, fun l hl => absurd hl (List.not_mem_nil l)⟩
    | some study_id =>
      rw [prolific_run_eq conditions env m study_id hm hi]
      refine ⟨rfl, rfl, rfl, rfl, fun l hl => ⟨pvalMul60 m, ?_⟩⟩
      exact (prolificLoop_spec env.prolific_dict (pvalMul60 m) env.obs none
        env.ticks (lookup_isEmpty_false _ _ _ hm)).1 l hl

/-! ### Claim theorems -/

/-- C3: For every observation mapping fetched at completion, the returned
result is the mapping's values projected in lexicographically sorted order of
their string keys, independent of the mapping's internal iteration order;
applying the aggregation twice to an unchanged mapping yields identical
sequences; the mapping with keys `c2, c1, c10` yields the values of
`c1, c10, c2` in that order. -/
theorem c3_aggregation_sorted_stable {V : Type} :
    (∀ v : String → V,
      observationListOf ⟨["c2", "c1", "c10"], v⟩ = [v "c1", v "c10", v "c2"])
    ∧ (∀ (keys1 keys2 : List String) (v : String → V), keys1.Perm keys2 →
        observationListOf ⟨keys1, v⟩ = observationListOf ⟨keys2, v⟩)
    ∧ (∀ m : ObsMap V, observationListOf m = observationListOf m) := by
  refine ⟨?_, ?_, fun m => rfl⟩
  · intro v
    have h : pySorted ["c2", "c1", "c10"] = ["c1", "c10", "c2"] := by decide
    unfold observationListOf
    rw [h]
    rfl
  · intro keys1 keys2 v h
    unfold observationListOf
    rw [pySorted_eq_of_perm keys1 keys2 h]

/-- C3 witness. -/
theorem c3_witness :
    observationListOf (⟨["b", "a"], fun k => k⟩ : ObsMap String)
      = observationListOf (⟨["a", "b"], fun k => k⟩ : ObsMap String) :=
  c3_aggregation_sorted_stable.2.1 ["b", "a"] ["a", "b"] (fun k => k)
    (by decide)

/-- C1: On every combined-mode tick on which completion does not hold
(`returned = false`), with host status `l.fb` and campaign status `c.status`
read in that tick, the run issues exactly the recruiter action of the
precedence table of spec §4.1 and nothing else; in particular at most one
recruiter action per tick. -/
theorem c1_reconciler_matches_table {C V : Type} (conditions : List C)
    (env : ProlificEnv V) :
    ∀ l ∈ (firebase_prolific_run conditions env).2.ticks,
      l.returned = false →
      ∀ c, l.prolific = some c →
        l.actions = (specReconcilerTable l.fb c.status).toList
        ∧ l.actions.length ≤ 1 := by
  intro l hl _ c hc
  obtain ⟨-, -, -, -, hgood⟩ := prolific_run_log conditions env
  obtain ⟨time_out, -, -, -, c2, hc2, hacts, -, -⟩ := hgood l hl
  rw [hc] at hc2
  obtain rfl : c = c2 := Option.some.inj hc2
  refine ⟨hacts, ?_⟩
  rw [hacts]
  cases specReconcilerTable l.fb c.status <;> simp

/-! Concrete environments evaluated by the witnesses. -/

/-- A combined-mode environment: a well-formed study spec, one tick with open
host slots and an unpublished campaign, then one completing tick. -/
def envW : ProlificEnv String :=
  { prolific_dict :=
      [("maximum_allowed_time", PVal.num 5), ("id", PVal.str "s1")],
    ticks :=
      [⟨"available", ⟨0, 2, "UNPUBLISHED"⟩⟩,
       ⟨"finished", ⟨2, 2, "STARTED"⟩⟩],
    obs := ⟨["c2", "c1"], fun k => k⟩ }

/-- The first tick log of the run of `envW`: publish is issued. -/
def tlogW : TickLog :=
  ⟨"autora", PVal.num 300, "available", true, some ⟨0, 2, "UNPUBLISHED"⟩,
   [RAct.publish], none, false⟩

/-- The second tick log of the run of `envW`: completion. -/
def tlogW2 : TickLog :=
  ⟨"autora", PVal.num 300, "finished", true, some ⟨2, 2, "STARTED"⟩,
   [], some "autora", true⟩

/-- C1 witness. -/
theorem c1_witness :
    tlogW.actions = (specReconcilerTable "available" "UNPUBLISHED").toList
    ∧ tlogW.actions.length ≤ 1 :=
  c1_reconciler_matches_table ([0] : List Nat) envW tlogW (by decide) rfl
    ⟨0, 2, "UNPUBLISHED"⟩ rfl

/-- C6: The recruiter action issued at a tick is a pure function of that
tick's (host status, campaign status) snapshot: any two executed ticks of any
two combined-mode runs that read the same pair of statuses issue the same
actions, with no dependence on any other state. -/
theorem c6_action_pure_function_of_snapshot {C V D W : Type}
    (conditions1 : List C) (env1 : ProlificEnv V)
    (conditions2 : List D) (env2 : ProlificEnv W) :
    ∀ l1 ∈ (firebase_prolific_run conditions1 env1).2.ticks,
    ∀ l2 ∈ (firebase_prolific_run conditions2 env2).2.ticks,
      l1.fb = l2.fb →
      l1.prolific.map ProlificCheck.status
        = l2.prolific.map ProlificCheck.status →
      l1.actions = l2.actions := by
  intro l1 hl1 l2 hl2 hfb hst
  obtain ⟨-, -, -, -, hgood1⟩ := prolific_run_log conditions1 env1
  obtain ⟨-, -, -, -, hgood2⟩ := prolific_run_log conditions2 env2
  obtain ⟨t1, -, -, -, c1, hc1, hacts1, -, -⟩ := hgood1 l1 hl1
  obtain ⟨t2, -, -, -, c2, hc2, hacts2, -, -⟩ := hgood2 l2 hl2
  rw [hc1, hc2] at hst
  have hs : c1.status = c2.status := Option.some.inj hst
  rw [hacts1, hacts2, hfb, hs]

/-- A second combined-mode environment with a different study spec and
different submission counters but the same first-tick status pair as `envW`. -/
def envW2 : ProlificEnv String :=
  { prolific_dict :=
      [("maximum_allowed_time", PVal.num 10), ("id", PVal.str "s9")],
    ticks := [⟨"available", ⟨1, 5, "UNPUBLISHED"⟩⟩],
    obs := ⟨[], fun _ => ""⟩ }

/-- The first tick log of the run of `envW2`. -/
def tlogV : TickLog :=
  ⟨"autora", PVal.num 600, "available", true, some ⟨1, 5, "UNPUBLISHED"⟩,
   [RAct.publish], none, false⟩

/-- C6 witness. -/
theorem c6_witness : tlogW.actions = tlogV.actions :=
  c6_action_pure_function_of_snapshot ([0] : List Nat) envW
    ([] : List Nat) envW2 tlogW (by decide) tlogV (by decide) rfl rfl

/-- C4: A host-only run never creates a campaign, never reads the recruiter
status and never issues a recruiter action; it returns exactly on the first
poll that reads host status `finished`, returning the sorted observation
sequence. -/
theorem c4_host_only_run {C V : Type} (conditions : List C) (time_out : PVal)
    (env : HostEnv V) :
    ((firebase_run conditions time_out env).2.campaignCreated = false
      ∧ (firebase_run conditions time_out env).2.campaignPlaces = none
      ∧ (firebase_run conditions time_out env).2.studyId = none
      ∧ ∀ l ∈ (firebase_run conditions time_out env).2.ticks,
          l.prolificCalled = false ∧ l.actions = [])
    ∧ ((firebase_run conditions time_out env).1.isReturned = true ↔
        "finished" ∈ env.statuses)
    ∧ ((firebase_run conditions time_out env).1.isReturned = true →
        (firebase_run conditions time_out env).1
          = Outcome.returned (observationListOf env.obs))
    ∧ (∀ l ∈ (firebase_run conditions time_out env).2.ticks,
        (l.returned = true ↔ l.fb = "finished")) := by
  obtain ⟨g1, g2, g3, g4, g5, g6⟩ :=
    firebaseLoop_spec time_out env.obs env.statuses
  rw [firebase_run_eq conditions time_out env]
  refine ⟨⟨rfl, rfl, rfl, ?_⟩, g2, g3, ?_⟩
  · intro l hl
    obtain ⟨-, -, hpc, -, hacts, -, -⟩ := g1 l hl
    exact ⟨hpc, hacts⟩
  · intro l hl
    obtain ⟨-, -, -, -, -, hret, -⟩ := g1 l hl
    exact hret

/-- A host-only environment: one `available` tick, then `finished`. -/
def henvW : HostEnv String :=
  { statuses := ["available", "finished"], obs := ⟨["b", "a"], fun k => k⟩ }

/-- C4 witness. -/
theorem c4_witness :
    (firebase_run ([0] : List Nat) (PVal.num 7) henvW).1
      = Outcome.returned (observationListOf henvW.obs) :=
  (c4_host_only_run ([0] : List Nat) (PVal.num 7) henvW).2.2.1 (by decide)

/-- C2: A combined-mode run (whose study-spec lookups succeed) returns the
observation sequence exactly when some tick's snapshot satisfies
`number_of_submissions >= total_available_places` and host status `finished`
together; on every executed tick on which only one of the two holds, the run
does not complete. -/
theorem c2_completion_needs_both {C V : Type} (conditions : List C)
    (env : ProlificEnv V) (m study_id : PVal)
    (hm : env.prolific_dict.lookup "maximum_allowed_time" = some m)
    (hi : env.prolific_dict.lookup "id" = some study_id) :
    ((firebase_prolific_run conditions env).1
        = Outcome.returned (observationListOf env.obs)
      ↔ ∃ t ∈ env.ticks,
          t.prolific.number_of_submissions ≥ t.prolific.total_available_places
          ∧ t.fb = "finished")
    ∧ (∀ l ∈ (firebase_prolific_run conditions env).2.ticks, ∀ c,
        l.prolific = some c →
        (l.returned = true ↔
          (c.number_of_submissions ≥ c.total_available_places
           ∧ l.fb = "finished"))) := by
  have hpd := lookup_isEmpty_false _ _ _ hm
  obtain ⟨g1, g2, g3, -, -, -⟩ :=
    prolificLoop_spec env.prolific_dict (pvalMul60 m) env.obs none env.ticks
      hpd
  rw [prolific_run_eq conditions env m study_id hm hi]
  constructor
  · constructor
    · intro h
      refine g2.mp ?_
      rw [h]
      rfl
    · intro h
      exact g3 (g2.mpr h)
  · intro l hl c hc
    obtain ⟨-, -, -, c2, hc2, -, hret, -⟩ := g1 l hl
    rw [hc] at hc2
    obtain rfl : c = c2 := Option.some.inj hc2
    exact hret

/-- C2 witness. -/
theorem c2_witness :
    (firebase_prolific_run ([0] : List Nat) envW).1
      = Outcome.returned (observationListOf envW.obs) :=
  (c2_completion_needs_both ([0] : List Nat) envW (PVal.num 5)
      (PVal.str "s1") (by decide) (by decide)).1.mpr
    ⟨⟨"finished", ⟨2, 2, "STARTED"⟩⟩, by decide, by decide, by decide⟩

/-- C5: The combined-mode run creates the recruitment campaign with
`total_available_places = len(conditions)`, and when the study spec reports a
numeric `maximum_allowed_time` of `n` minutes, every host-status poll in the
run's loop passes the time-out `n * 60` seconds. -/
theorem c5_campaign_size_and_timeout {C V : Type} (conditions : List C)
    (env : ProlificEnv V) (n : Int)
    (hm : env.prolific_dict.lookup "maximum_allowed_time"
        = some (PVal.num n)) :
    (firebase_prolific_run conditions env).2.campaignCreated = true
    ∧ (firebase_prolific_run conditions env).2.campaignPlaces
        = some conditions.length
    ∧ ∀ l ∈ (firebase_prolific_run conditions env).2.ticks,
        l.fbTimeOut = PVal.num (n * 60) := by
  cases hi : env.prolific_dict.lookup "id" with
  | none =>
    rw [prolific_run_keyError_id conditions env (PVal.num n) hm hi]
    exact ⟨rfl, rfl, fun l hl => absurd hl (List.not_mem_nil l)⟩
  | some study_id =>
    have hpd := lookup_isEmpty_false _ _ _ hm
    rw [prolific_run_eq conditions env (PVal.num n) study_id hm hi]
    refine ⟨rfl, rfl, ?_⟩
    intro l hl
    obtain ⟨-, ht, -⟩ :=
      (prolificLoop_spec env.prolific_dict (pvalMul60 (PVal.num n)) env.obs
        none env.ticks hpd).1 l hl
    exact ht

/-- C5 witness. -/
theorem c5_witness : tlogW.fbTimeOut = PVal.num (5 * 60) :=
  (c5_campaign_size_and_timeout ([0] : List Nat) envW 5 (by decide)).2.2
    tlogW (by decide)

/-- C7: In every run, host-only or combined, `get_observations` is called on a
tick exactly when the run returns on that tick; it is called exactly once in a
returning run and never in a non-returning one, and only on a tick whose
snapshot satisfies the completion condition. -/
theorem c7_fetch_exactly_once_at_completion {C V D W : Type}
    (conditions : List C) (time_out : PVal) (henv : HostEnv V)
    (conditions2 : List D) (penv : ProlificEnv W) :
    ((∀ l ∈ (firebase_run conditions time_out henv).2.ticks,
        (l.fetchNs.isSome = true ↔ l.returned = true)
        ∧ (l.fetchNs.isSome = true → l.fb = "finished"))
      ∧ (firebase_run conditions time_out henv).2.ticks.countP
            (fun l => l.fetchNs.isSome)
          = (if (firebase_run conditions time_out henv).1.isReturned then 1
             else 0))
    ∧ ((∀ l ∈ (firebase_prolific_run conditions2 penv).2.ticks,
        (l.fetchNs.isSome = true ↔ l.returned = true)
        ∧ (l.fetchNs.isSome = true → ∀ c, l.prolific = some c →
            c.number_of_submissions ≥ c.total_available_places
            ∧ l.fb = "finished"))
      ∧ (firebase_prolific_run conditions2 penv).2.ticks.countP
            (fun l => l.fetchNs.isSome)
          = (if (firebase_prolific_run conditions2 penv).1.isReturned then 1
             else 0)) := by
  constructor
  · obtain ⟨g1, -, -, -, -, g6⟩ :=
      firebaseLoop_spec time_out henv.obs henv.statuses
    rw [firebase_run_eq conditions time_out henv]
    refine ⟨?_, g6⟩
    intro l hl
    obtain ⟨-, -, -, -, -, hret, hfetch⟩ := g1 l hl
    rw [hfetch]
    cases hr : l.returned with
    | false => simp
    | true => simp [hret.mp hr]
  · cases hm : penv.prolific_dict.lookup "maximum_allowed_time" with
    | none =>
      rw [prolific_run_keyError_time conditions2 penv hm]
      exact ⟨fun l hl => absurd hl (List.not_mem_nil l), rfl⟩
    | some m =>
      cases hi : penv.prolific_dict.lookup "id" with
      | none =>
        rw [prolific_run_keyError_id conditions2 penv m hm hi]
        exact ⟨fun l hl => absurd hl (List.not_mem_nil l), rfl⟩
      | some study_id =>
        have hpd := lookup_isEmpty_false _ _ _ hm
        obtain ⟨g1, -, -, -, -, g6⟩ :=
          prolificLoop_spec penv.prolific_dict (pvalMul60 m) penv.obs none
            penv.ticks hpd
        rw [prolific_run_eq conditions2 penv m study_id hm hi]
        refine ⟨?_, g6⟩
        intro l hl
        obtain ⟨-, -, -, c, hc, -, hret, hfetch⟩ := g1 l hl
        constructor
        · rw [hfetch]
          cases hr : l.returned with
          | false => simp
          | true => simp
        · intro hsome c2 hc2
          rw [hc] at hc2
          obtain rfl : c = c2 := Option.some.inj hc2
          refine hret.mp ?_
          rw [hfetch] at hsome
          cases hr : l.returned with
          | false => rw [hr] at hsome; simp at hsome
          | true => rfl

/-- C7 witness. -/
theorem c7_witness : tlogW2.fetchNs.isSome = true ↔ tlogW2.returned = true :=
  ((c7_fetch_exactly_once_at_completion ([0] : List Nat) (PVal.num 7) henvW
      ([0] : List Nat) envW).2.1 tlogW2 (by decide)).1

/-- C9: The apparent use-before-assignment of `check_prolific` in the
available/unavailable branches is unreachable: no run ever raises `NameError`;
a falsy (empty) study-spec dict instead fails at the
`prolific_dict["maximum_allowed_time"]` lookup before the loop, executing no
tick; and on every executed tick the recruiter status is read and assigned
before the branches run. -/
theorem c9_name_error_unreachable {C V : Type} (conditions : List C)
    (env : ProlificEnv V) :
    (∀ s, (firebase_prolific_run conditions env).1
        ≠ Outcome.pyError (PyError.nameError s))
    ∧ (env.prolific_dict = [] →
        (firebase_prolific_run conditions env).1
          = Outcome.pyError (PyError.keyError "maximum_allowed_time")
        ∧ (firebase_prolific_run conditions env).2.ticks = [])
    ∧ (∀ l ∈ (firebase_prolific_run conditions env).2.ticks,
        l.prolificCalled = true ∧ l.prolific.isSome = true) := by
  refine ⟨?_, ?_, ?_⟩
  · intro s h
    cases hm : env.prolific_dict.lookup "maximum_allowed_time" with
    | none =>
      rw [prolific_run_keyError_time conditions env hm] at h
      simp at h
    | some m =>
      cases hi : env.prolific_dict.lookup "id" with
      | none =>
        rw [prolific_run_keyError_id conditions env m hm hi] at h
        simp at h
      | some study_id =>
        rw [prolific_run_eq conditions env m study_id hm hi] at h
        exact (prolificLoop_spec env.prolific_dict (pvalMul60 m) env.obs none
          env.ticks (lookup_isEmpty_false _ _ _ hm)).2.2.2.1
          (PyError.nameError s) h
  · intro hnil
    have hm : env.prolific_dict.lookup "maximum_allowed_time" = none := by
      rw [hnil]
      rfl
    rw [prolific_run_keyError_time conditions env hm]
    exact ⟨rfl, rfl⟩
  · intro l hl
    obtain ⟨-, -, -, -, hgood⟩ := prolific_run_log conditions env
    obtain ⟨time_out, -, -, hcalled, c, hc, -⟩ := hgood l hl
    exact ⟨hcalled, by rw [hc]; rfl⟩

/-- An environment whose `setup_study` response is a falsy (empty) dict. -/
def envEmpty : ProlificEnv String :=
  { prolific_dict := [],
    ticks := [⟨"available", ⟨0, 0, "UNPUBLISHED"⟩⟩],
    obs := ⟨[], fun _ => ""⟩ }

/-- C9 witness. -/
theorem c9_witness :
    (firebase_prolific_run ([0] : List Nat) envEmpty).1
      = Outcome.pyError (PyError.keyError "maximum_allowed_time") :=
  ((c9_name_error_unreachable ([0] : List Nat) envEmpty).2.1 rfl).1

/-- C10: Every host-client call in both runners passes the fixed namespace
constant `"autora"`: `send_conditions`, every `check_firebase_status` poll and
every `get_observations` fetch, in every run over every configuration and
environment. -/
theorem c10_namespace_constant {C V D W : Type} (conditions : List C)
    (time_out : PVal) (henv : HostEnv V) (conditions2 : List D)
    (penv : ProlificEnv W) :
    ((firebase_run conditions time_out henv).2.sendNs = "autora"
      ∧ ∀ l ∈ (firebase_run conditions time_out henv).2.ticks,
          l.fbNs = "autora" ∧ (∀ s, l.fetchNs = some s → s = "autora"))
    ∧ ((firebase_prolific_run conditions2 penv).2.sendNs = "autora"
      ∧ ∀ l ∈ (firebase_prolific_run conditions2 penv).2.ticks,
          l.fbNs = "autora" ∧ (∀ s, l.fetchNs = some s → s = "autora")) := by
  constructor
  · obtain ⟨g1, -⟩ := firebaseLoop_spec time_out henv.obs henv.statuses
    rw [firebase_run_eq conditions time_out henv]
    refine ⟨rfl, ?_⟩
    intro l hl
    obtain ⟨hns, -, -, -, -, -, hfetch⟩ := g1 l hl
    refine ⟨hns, ?_⟩
    intro s hs
    rw [hfetch] at hs
    cases hr : l.returned with
    | false => rw [hr] at hs; simp at hs
    | true =>
      rw [hr] at hs
      exact (Option.some.inj hs).symm
  · obtain ⟨hsend, -, -, -, hgood⟩ := prolific_run_log conditions2 penv
    refine ⟨hsend, ?_⟩
    intro l hl
    obtain ⟨time_out2, hns, -, -, -, -, -, -, hfetch⟩ := hgood l hl
    refine ⟨hns, ?_⟩
    intro s hs
    rw [hfetch] at hs
    cases hr : l.returned with
    | false => rw [hr] at hs; simp at hs
    | true =>
      rw [hr] at hs
      exact (Option.some.inj hs).symm

/-- C10 witness. -/
theorem c10_witness : tlogW.fbNs = "autora" :=
  ((c10_namespace_constant ([0] : List Nat) (PVal.num 7) henvW
      ([0] : List Nat) envW).2.2 tlogW (by decide)).1

/-- A completing combined-mode environment whose fetched observation mapping
has 1 entry, while 2 conditions are submitted. -/
def envC8 : ProlificEnv String :=
  { prolific_dict :=
      [("maximum_allowed_time", PVal.num 5), ("id", PVal.str "s2")],
    ticks := [⟨"finished", ⟨2, 2, "STARTED"⟩⟩],
    obs := ⟨["c1"], fun _ => "x"⟩ }

/-- C8 counterexample: completion is detected while the fetched observation
mapping has 1 entry and 2 conditions were submitted, yet the run returns the
observation sequence — it raises nothing.  (The outcome type of the embedding
carries exactly the Python errors the source can raise; no
`InconsistentStateError` exists anywhere in the code.) -/
theorem c8_counterexample :
    (firebase_prolific_run ([0, 1] : List Nat) envC8).1
        = Outcome.returned ["x"]
    ∧ envC8.obs.keys.length = 1
    ∧ (firebase_prolific_run ([0, 1] : List Nat) envC8).2.sentCount = 2 := by
  decide

/-- C8 amended: when completion is detected, the run returns the sorted
observation sequence unconditionally; no consistency check between the
fetched observation count and the submitted condition count is performed, and
no error is raised, in either runner. -/
theorem c8_no_count_check {C V D W : Type} (conditions : List C)
    (env : ProlificEnv V) (m study_id : PVal)
    (hm : env.prolific_dict.lookup "maximum_allowed_time" = some m)
    (hi : env.prolific_dict.lookup "id" = some study_id)
    (hdone : ∃ t ∈ env.ticks,
      t.prolific.number_of_submissions ≥ t.prolific.total_available_places
      ∧ t.fb = "finished")
    (conditions2 : List D) (time_out : PVal) (henv : HostEnv W)
    (hfin : "finished" ∈ henv.statuses) :
    (firebase_prolific_run conditions env).1
        = Outcome.returned (observationListOf env.obs)
    ∧ (firebase_run conditions2 time_out henv).1
        = Outcome.returned (observationListOf henv.obs) := by
  constructor
  · have hpd := lookup_isEmpty_false _ _ _ hm
    obtain ⟨-, g2, g3, -⟩ :=
      prolificLoop_spec env.prolific_dict (pvalMul60 m) env.obs none env.ticks
        hpd
    rw [prolific_run_eq conditions env m study_id hm hi]
    exact g3 (g2.mpr hdone)
  · obtain ⟨-, g2, g3, -⟩ := firebaseLoop_spec time_out henv.obs henv.statuses
    rw [firebase_run_eq conditions2 time_out henv]
    exact g3 (g2.mpr hfin)

/-- C8 witness (for the amended claim). -/
theorem c8_witness :
    (firebase_prolific_run ([0, 1] : List Nat) envC8).1
      = Outcome.returned (observationListOf envC8.obs) :=
  (c8_no_count_check ([0, 1] : List Nat) envC8 (PVal.num 5) (PVal.str "s2")
      (by decide) (by decide)
      ⟨⟨"finished", ⟨2, 2, "STARTED"⟩⟩, by decide, by decide, by decide⟩
      ([0] : List Nat) (PVal.num 7) henvW (by decide)).1
